import Mathlib

/-!
Verification development for the ghost-hunting simulation (C sources under
src/: defs.h, evidence.c, hunter.c, ghost.c, house.c, main.c, room.c,
utils.c).  The definitions below are a shallow embedding of the program:
C arrays and linked lists become `List`, machine integers become `Int` or
`Nat` (no quantity in this program approaches overflow), fallible
operations return a result code paired with the post-state, and the
thread-local random source `rand_r` is modelled as an injected stream of
raw draws in `[0, RAND_MAX]`, with the floating-point arithmetic of
`randFloat` idealised as exact rational arithmetic followed by the C cast
truncation (integer floor).  Console logging is not modelled.
-/

namespace GhostHunt

/-- Constant MAX_EV from defs.h: capacity of the shared evidence pool. -/
def MAX_EV : Nat := 3

/-- Constant NUM_HUNTERS from defs.h. -/
def NUM_HUNTERS : Nat := 4

/-- Constant FEAR_MAX from defs.h. -/
def FEAR_MAX : Int := 10

/-- Constant BOREDOM_MAX from defs.h. -/
def BOREDOM_MAX : Int := 100

/-- Enum EvidenceType value EMF = 0 (defs.h). -/
def EMF : Int := 0

/-- Enum EvidenceType value TEMPERATURE = 1 (defs.h). -/
def TEMPERATURE : Int := 1

/-- Enum EvidenceType value FINGERPRINTS = 2 (defs.h). -/
def FINGERPRINTS : Int := 2

/-- Enum EvidenceType value SOUND = 3 (defs.h). -/
def SOUND : Int := 3

/-- Enum EvidenceType value EV_COUNT = 4 (defs.h): the sentinel counting the
detectable kinds, not itself a detectable kind. -/
def EV_COUNT : Int := 4

/-- Enum EvidenceType value EV_UNKNOWN = 5 (defs.h). -/
def EV_UNKNOWN : Int := 5

/-- Enum GhostClass value POLTERGEIST = 0 (defs.h). -/
def POLTERGEIST : Int := 0

/-- Enum GhostClass value BANSHEE = 1 (defs.h). -/
def BANSHEE : Int := 1

/-- Enum GhostClass value BULLIES = 2 (defs.h). -/
def BULLIES : Int := 2

/-- Enum GhostClass value PHANTOM = 3 (defs.h). -/
def PHANTOM : Int := 3

/-- Enum GhostClass value GH_UNKNOWN = 5 (defs.h). -/
def GH_UNKNOWN : Int := 5

/-- Embedding of isEvidenceCollected (src/evidence.c, lines 183-190): linear
scan of the pool's occupied slots for the given kind. -/
def isEvidenceCollected (pool : List Int) (evidence : Int) : Bool :=
  pool.any (fun x => x == evidence)

/-- Embedding of collectEv (src/evidence.c, lines 141-173).  The shared pool
is the prefix of the C array occupied by `size` entries, modelled as a list.
The function first rejects values outside `[EMF, EV_UNKNOWN)`, then, under
the pool's semaphore, rejects when the pool holds MAX_EV entries or the kind
is already present, and otherwise appends the kind at index `size`.  The
result is the C return code (1 success, -1 failure) paired with the pool
after the call. -/
def collectEv (pool : List Int) (evidence : Int) : Int × List Int :=
  if EV_UNKNOWN ≤ evidence ∨ evidence < EMF then (-1, pool)
  else if MAX_EV ≤ pool.length then (-1, pool)
  else if isEvidenceCollected pool evidence then (-1, pool)
  else (1, pool ++ [evidence])

/-- Running a whole sequence of collectEv calls against the pool, which
starts empty (initEvidenceArray in src/evidence.c sets size to 0). -/
def runCollect (calls : List Int) : List Int :=
  calls.foldl (fun pool evidence => (collectEv pool evidence).2) []

/-- Embedding of doesEvidenceExist (src/evidence.c, lines 202-216): walks the
room's evidence ledger node by node and returns the first entry equal to the
hunter's equipment, or EV_UNKNOWN when none matches.  The traversal re-emits
every node it visits, so the ledger left behind by the query is part of the
result and the frame property is expressible. -/
def doesEvidenceExist : List Int → Int → Int × List Int
  | [], _ => (EV_UNKNOWN, [])
  | x :: rest, equipment =>
    if x = equipment then (x, x :: rest)
    else
      let r := doesEvidenceExist rest equipment
      (r.1, x :: r.2)

/-- Embedding of decrementHunterCount (src/hunter.c, lines 229-241):
decrements the house's active-hunter counter when positive, otherwise leaves
it unchanged (only a warning is printed). -/
def decrementHunterCount (hunterCount : Int) : Int :=
  if 0 < hunterCount then hunterCount - 1 else hunterCount

lemma MAX_EV_eq : MAX_EV = 3 := rfl

lemma EMF_eq : EMF = 0 := rfl

lemma TEMPERATURE_eq : TEMPERATURE = 1 := rfl

lemma FINGERPRINTS_eq : FINGERPRINTS = 2 := rfl

lemma SOUND_eq : SOUND = 3 := rfl

lemma EV_UNKNOWN_eq : EV_UNKNOWN = 5 := rfl

lemma POLTERGEIST_eq : POLTERGEIST = 0 := rfl

lemma BANSHEE_eq : BANSHEE = 1 := rfl

lemma BULLIES_eq : BULLIES = 2 := rfl

lemma PHANTOM_eq : PHANTOM = 3 := rfl

lemma GH_UNKNOWN_eq : GH_UNKNOWN = 5 := rfl

lemma isEvidenceCollected_iff (pool : List Int) (e : Int) :
    isEvidenceCollected pool e = true ↔ e ∈ pool := by
  unfold isEvidenceCollected
  simp only [List.any_eq_true, beq_iff_eq]
  constructor
  · rintro ⟨x, hx, rfl⟩; exact hx
  · intro h; exact ⟨e, h, rfl⟩

lemma collectEv_preserves (pool : List Int) (e : Int)
    (hlen : pool.length ≤ 3) (hnd : pool.Nodup) :
    ((collectEv pool e).2).length ≤ 3 ∧ ((collectEv pool e).2).Nodup := by
  unfold collectEv
  split_ifs with h1 h2 h3
  · exact ⟨hlen, hnd⟩
  · exact ⟨hlen, hnd⟩
  · exact ⟨hlen, hnd⟩
  · have he : e ∉ pool := by
      intro hmem
      exact h3 ((isEvidenceCollected_iff pool e).mpr hmem)
    constructor
    · rw [MAX_EV_eq] at h2
      simp only [List.length_append, List.length_cons, List.length_nil]
      omega
    · simp [List.nodup_append, hnd, he]

lemma runCollect_invariant_aux (calls : List Int) :
    ∀ pool : List Int, pool.length ≤ 3 → pool.Nodup →
      ((calls.foldl (fun p e => (collectEv p e).2) pool).length ≤ 3 ∧
        (calls.foldl (fun p e => (collectEv p e).2) pool).Nodup) := by
  induction calls with
  | nil => intro pool hlen hnd; exact ⟨hlen, hnd⟩
  | cons e rest ih =>
    intro pool hlen hnd
    have h := collectEv_preserves pool e hlen hnd
    exact ih _ h.1 h.2

/-- Claim C1: every sequence of collectEv calls on the initially empty shared
pool keeps the pool at no more than MAX_EV = 3 entries with no kind twice;
an individual call with a detectable kind is rejected with result -1 and
leaves the pool unchanged when the pool is full or the kind already present,
and otherwise appends the kind and returns 1. -/
theorem collectEv_pool_invariant :
    (∀ calls : List Int,
      (runCollect calls).length ≤ 3 ∧ (runCollect calls).Nodup) ∧
    (∀ (pool : List Int) (e : Int), EMF ≤ e → e ≤ SOUND →
      ((3 ≤ pool.length ∨ e ∈ pool) → collectEv pool e = (-1, pool)) ∧
      (pool.length < 3 → e ∉ pool → collectEv pool e = (1, pool ++ [e]))) := by
  constructor
  · intro calls
    exact runCollect_invariant_aux calls [] (by simp) (by simp)
  · intro pool e h0 h3
    rw [EMF_eq] at h0
    rw [SOUND_eq] at h3
    have hrange : ¬ (EV_UNKNOWN ≤ e ∨ e < EMF) := by
      rw [EV_UNKNOWN_eq, EMF_eq]
      omega
    constructor
    · intro hrej
      unfold collectEv
      rcases hrej with hfull | hdup
      · rw [if_neg hrange, if_pos (by rw [MAX_EV_eq]; omega)]
      · rw [if_neg hrange]
        split_ifs with h2 h4
        · rfl
        · rfl
        · exact absurd ((isEvidenceCollected_iff pool e).mpr hdup) h4
    · intro hlen hdup
      unfold collectEv
      rw [if_neg hrange,
        if_neg (by rw [MAX_EV_eq]; omega),
        if_neg (by simp [isEvidenceCollected_iff, hdup])]

/-- Witness for C1 at concrete inputs: a full pool rejects, a duplicate
rejects, and a fresh kind in a non-full pool is appended. -/
theorem collectEv_pool_invariant_witness :
    (runCollect [0, 0, 1, 2, 3]).length ≤ 3 ∧
      collectEv [0, 1, 2] 3 = (-1, [0, 1, 2]) ∧
      collectEv [0, 1] 2 = (1, [0, 1, 2]) :=
  ⟨(collectEv_pool_invariant.1 [0, 0, 1, 2, 3]).1,
    (collectEv_pool_invariant.2 [0, 1, 2] 3 (by decide) (by decide)).1
      (by decide),
    (collectEv_pool_invariant.2 [0, 1] 2 (by decide) (by decide)).2
      (by decide) (by decide)⟩

/-- Counterexample to claim C8 as stated: the sentinel value EV_COUNT = 4 is
outside the detectable kinds EMF, TEMPERATURE, FINGERPRINTS, SOUND, yet
collectEv does not reject it — it inserts 4 into the pool and returns
success, because the validity test only rejects values below EMF or at or
above EV_UNKNOWN = 5. -/
theorem collectEv_accepts_EV_COUNT :
    (EV_COUNT = (4 : Int) ∧
      ¬ (EV_COUNT = EMF ∨ EV_COUNT = TEMPERATURE ∨
          EV_COUNT = FINGERPRINTS ∨ EV_COUNT = SOUND)) ∧
      collectEv [] EV_COUNT = (1, [4]) := by
  decide

/-- Claim C8 as amended: collectEv rejects with result -1 and leaves the pool
unchanged exactly for evidence values below EMF = 0 or at or above
EV_UNKNOWN = 5; the sentinel EV_COUNT = 4, though not a detectable kind,
passes the validity check and can be inserted like a kind. -/
theorem collectEv_rejects_out_of_range (pool : List Int) (e : Int)
    (h : e < EMF ∨ EV_UNKNOWN ≤ e) :
    collectEv pool e = (-1, pool) := by
  unfold collectEv
  rw [if_pos (h.symm.imp id id)]

/-- Witness for the amended C8 at a concrete input. -/
theorem collectEv_rejects_out_of_range_witness :
    collectEv [0] 7 = (-1, [0]) :=
  collectEv_rejects_out_of_range [0] 7 (by decide)

lemma doesEvidenceExist_spec (ledger : List Int) (equipment : Int) :
    (doesEvidenceExist ledger equipment).2 = ledger ∧
      (doesEvidenceExist ledger equipment).1 =
        (if equipment ∈ ledger then equipment else EV_UNKNOWN) := by
  induction ledger with
  | nil => simp [doesEvidenceExist]
  | cons x rest ih =>
    by_cases hx : x = equipment
    · subst hx
      simp [doesEvidenceExist]
    · simp only [doesEvidenceExist, if_neg hx]
      refine ⟨by rw [ih.1], ?_⟩
      rw [ih.2]
      simp [List.mem_cons, Ne.symm hx]

/-- Claim C9: querying a room's evidence ledger never mutates it — the ledger
after doesEvidenceExist is the ledger before; the query returns the hunter's
equipment kind exactly when an equal entry is present and EV_UNKNOWN
otherwise; and since reads never consume entries, repeating the query on the
resulting ledger returns the same answer. -/
theorem doesEvidenceExist_frame (ledger : List Int) (equipment : Int) :
    (doesEvidenceExist ledger equipment).2 = ledger ∧
      (doesEvidenceExist ledger equipment).1 =
        (if equipment ∈ ledger then equipment else EV_UNKNOWN) ∧
      doesEvidenceExist (doesEvidenceExist ledger equipment).2 equipment =
        doesEvidenceExist ledger equipment := by
  refine ⟨(doesEvidenceExist_spec ledger equipment).1,
    (doesEvidenceExist_spec ledger equipment).2, ?_⟩
  rw [(doesEvidenceExist_spec ledger equipment).1]

lemma decrementHunterCount_nonneg (c : Int) (h : 0 ≤ c) :
    0 ≤ decrementHunterCount c := by
  unfold decrementHunterCount
  split_ifs <;> omega

/-- Claim C10: decrementHunterCount decreases a positive counter by exactly
one and leaves a zero counter unchanged, so iterating it any number of times
from the initial count NUM_HUNTERS = 4 never drives the counter negative. -/
theorem decrementHunterCount_never_negative :
    (∀ c : Int, 0 < c → decrementHunterCount c = c - 1) ∧
      decrementHunterCount 0 = 0 ∧
      ∀ n : Nat, 0 ≤ decrementHunterCount^[n] ((NUM_HUNTERS : Nat) : Int) := by
  refine ⟨fun c hc => by unfold decrementHunterCount; rw [if_pos hc], by decide, ?_⟩
  intro n
  induction n with
  | zero => simp [NUM_HUNTERS]
  | succ k ih =>
    rw [Function.iterate_succ_apply']
    exact decrementHunterCount_nonneg _ ih

/-- Witness for C10 at concrete inputs. -/
theorem decrementHunterCount_never_negative_witness :
    decrementHunterCount 4 = 3 ∧ decrementHunterCount 0 = 0 ∧
      0 ≤ decrementHunterCount^[5] ((NUM_HUNTERS : Nat) : Int) :=
  ⟨decrementHunterCount_never_negative.1 4 (by decide),
    decrementHunterCount_never_negative.2.1,
    decrementHunterCount_never_negative.2.2 5⟩

/-- Embedding of the occurrence tally inside isSufficientEvidence
(src/hunter.c, lines 314-342): how often the value `t` occurs in the shared
pool.  The C loop increments evidenceOccurrence[evType] for every pool entry
with 0 <= evType < MAX_EV and only warns about the rest. -/
def evidenceOccurrence (pool : List Int) (t : Nat) : Nat :=
  pool.countP (fun x => x == (t : Int))

/-- Embedding of isSufficientEvidence (src/hunter.c, lines 314-342): the
number of values in the half-open range [0, MAX_EV) — the code bounds its
occurrence array by MAX_EV = 3, not by EV_COUNT = 4 — that occur at least
once in the shared pool. -/
def isSufficientEvidence (pool : List Int) : Nat :=
  ((List.range MAX_EV).filter (fun t => 0 < evidenceOccurrence pool t)).length

/-- Embedding of the sufficiency test in reviewEvidenceAndExitIfNeeded
(src/hunter.c, lines 295-302): the reviewing hunter retires with a
LOG_SUFFICIENT review exactly when isSufficientEvidence reports at
least 3. -/
def reviewIsSufficient (pool : List Int) : Bool :=
  3 ≤ isSufficientEvidence pool

/-- Claim C2 fails on the code (code bug): the pool
[EMF, TEMPERATURE, SOUND] holds 3 distinct detectable kinds, yet
isSufficientEvidence — bounding its occurrence array by MAX_EV = 3 instead
of EV_COUNT = 4 — treats the valid kind SOUND = 3 as out of range, counts
only 2 kinds, and the review reports insufficiency.  The same pool with
FINGERPRINTS instead of SOUND is counted as 3, isolating the slip to the
MAX_EV bound. -/
theorem isSufficientEvidence_drops_SOUND :
    ([EMF, TEMPERATURE, SOUND].Nodup ∧
      ∀ x ∈ [EMF, TEMPERATURE, SOUND], EMF ≤ x ∧ x ≤ SOUND) ∧
      isSufficientEvidence [EMF, TEMPERATURE, SOUND] = 2 ∧
      reviewIsSufficient [EMF, TEMPERATURE, SOUND] = false ∧
      isSufficientEvidence [EMF, TEMPERATURE, FINGERPRINTS] = 3 ∧
      reviewIsSufficient [EMF, TEMPERATURE, FINGERPRINTS] = true := by
  decide

/-- Embedding of the flag-array fill in identifyGhostFromEvidence
(src/evidence.c, lines 255-276): flag j is set exactly when one of the three
evidence slots holds the value j and that value lies in the valid range
[EMF, SOUND]. -/
def evFlag (e : Fin 3 → Int) (j : Int) : Bool :=
  (List.finRange 3).any (fun i => (EMF ≤ e i && e i ≤ SOUND) && e i == j)

/-- Branch structure of identifyGhostFromEvidence (src/evidence.c,
lines 264-275) over the four evidence flags. -/
def ghostFromFlags (f0 f1 f2 f3 : Bool) : Int :=
  if f0 && f1 && f2 then POLTERGEIST
  else if f0 && f1 && f3 then BANSHEE
  else if f0 && f2 && f3 then BULLIES
  else if f1 && f2 && f3 then PHANTOM
  else GH_UNKNOWN

/-- Embedding of identifyGhostFromEvidence (src/evidence.c, lines 255-276):
a pure function of the three evidence slots. -/
def identifyGhostFromEvidence (e : Fin 3 → Int) : Int :=
  ghostFromFlags (evFlag e EMF) (evFlag e TEMPERATURE)
    (evFlag e FINGERPRINTS) (evFlag e SOUND)

/-- Set of valid evidence kinds occurring among the three slots (the claim
speaks of the set of valid kinds in the input array). -/
def kindSet (e : Fin 3 → Int) : Finset Int :=
  ({EMF, TEMPERATURE, FINGERPRINTS, SOUND} : Finset Int).filter
    (fun j => evFlag e j = true)

/-- Finset of kinds corresponding to an explicit choice of the four flags. -/
def filterKinds (b0 b1 b2 b3 : Bool) : Finset Int :=
  ({0, 1, 2, 3} : Finset Int).filter
    (fun j =>
      (if j = 0 then b0 else if j = 1 then b1 else if j = 2 then b2 else b3)
        = true)

lemma kindSet_eq_filterKinds (e : Fin 3 → Int) :
    kindSet e =
      filterKinds (evFlag e EMF) (evFlag e TEMPERATURE)
        (evFlag e FINGERPRINTS) (evFlag e SOUND) := by
  unfold kindSet filterKinds
  rw [EMF_eq, TEMPERATURE_eq, FINGERPRINTS_eq, SOUND_eq]
  apply Finset.filter_congr
  intro j hj
  fin_cases hj <;> simp [EMF_eq, TEMPERATURE_eq, FINGERPRINTS_eq, SOUND_eq]

lemma ghostFromFlags_cases (b0 b1 b2 b3 : Bool) :
    (filterKinds b0 b1 b2 b3 = {0, 1, 2} → ghostFromFlags b0 b1 b2 b3 = 0) ∧
    (filterKinds b0 b1 b2 b3 = {0, 1, 3} → ghostFromFlags b0 b1 b2 b3 = 1) ∧
    (filterKinds b0 b1 b2 b3 = {0, 2, 3} → ghostFromFlags b0 b1 b2 b3 = 2) ∧
    (filterKinds b0 b1 b2 b3 = {1, 2, 3} → ghostFromFlags b0 b1 b2 b3 = 3) ∧
    ((filterKinds b0 b1 b2 b3).card < 3 → ghostFromFlags b0 b1 b2 b3 = 5) := by
  revert b0 b1 b2 b3
  decide

/-- Claim C3: identifyGhostFromEvidence is a pure, deterministic function of
its 3 evidence slots; when the set of valid kinds among the slots equals one
of the four defined subsets it returns that subset's ghost class, when the
slots hold fewer than 3 distinct valid kinds it returns GH_UNKNOWN, and
repeated application to the same input gives the same result.  (With 3 slots
the kind set has at most 3 elements, and every 3-element subset of the four
kinds is one of the four defined subsets, so these cases are exhaustive.) -/
theorem identifyGhostFromEvidence_pure_cases (e : Fin 3 → Int) :
    (kindSet e = {EMF, TEMPERATURE, FINGERPRINTS} →
      identifyGhostFromEvidence e = POLTERGEIST) ∧
    (kindSet e = {EMF, TEMPERATURE, SOUND} →
      identifyGhostFromEvidence e = BANSHEE) ∧
    (kindSet e = {EMF, FINGERPRINTS, SOUND} →
      identifyGhostFromEvidence e = BULLIES) ∧
    (kindSet e = {TEMPERATURE, FINGERPRINTS, SOUND} →
      identifyGhostFromEvidence e = PHANTOM) ∧
    ((kindSet e).card < 3 → identifyGhostFromEvidence e = GH_UNKNOWN) ∧
    identifyGhostFromEvidence e = identifyGhostFromEvidence e := by
  have h := ghostFromFlags_cases (evFlag e EMF) (evFlag e TEMPERATURE)
    (evFlag e FINGERPRINTS) (evFlag e SOUND)
  rw [kindSet_eq_filterKinds]
  unfold identifyGhostFromEvidence
  rw [EMF_eq, TEMPERATURE_eq, FINGERPRINTS_eq, SOUND_eq,
    POLTERGEIST_eq, BANSHEE_eq, BULLIES_eq, PHANTOM_eq, GH_UNKNOWN_eq]
  exact ⟨h.1, h.2.1, h.2.2.1, h.2.2.2.1, h.2.2.2.2, rfl⟩

/-- Witness for C3 at a concrete input: the slots (EMF, TEMPERATURE,
FINGERPRINTS) form the Poltergeist subset and are identified as such. -/
theorem identifyGhostFromEvidence_pure_cases_witness :
    identifyGhostFromEvidence (fun i => [EMF, TEMPERATURE, FINGERPRINTS].getD i 0)
      = POLTERGEIST :=
  (identifyGhostFromEvidence_pure_cases
      (fun i => [EMF, TEMPERATURE, FINGERPRINTS].getD i 0)).1
    (by decide)

/-- Result of one updateHunterState tick: the hunter's counters, the house's
active-hunter counter, the roster of the hunter's current room as the code
leaves it, whether the hunter's thread terminated (pthread_exit), and
whether performHunterAction was reached. -/
structure HunterUpdateResult where
  fear : Int
  boredom : Int
  hunterCount : Int
  roomRoster : List String
  exited : Bool
  acted : Bool
  deriving DecidableEq

/-- Fear update at the top of updateHunterState (src/hunter.c,
lines 187-193): with the ghost present fear rises by one, capped at
FEAR_MAX; otherwise it is untouched. -/
def hunterFearAfter (ghostPresent : Bool) (fear : Int) : Int :=
  if ghostPresent then (if fear < FEAR_MAX then fear + 1 else FEAR_MAX)
  else fear

/-- Boredom update at the top of updateHunterState (src/hunter.c,
lines 187-193): with the ghost present boredom resets to 0; otherwise it
rises by one, capped at BOREDOM_MAX. -/
def hunterBoredomAfter (ghostPresent : Bool) (boredom : Int) : Int :=
  if ghostPresent then 0
  else (if boredom < BOREDOM_MAX then boredom + 1 else BOREDOM_MAX)

/-- Embedding of updateHunterState (src/hunter.c, lines 179-204).  Inputs:
whether the ghost shares the hunter's room (isGhostPresent), the hunter's
fear and boredom, the house's active-hunter counter, and the roster of the
hunter's current room (the names in room->hunterArray).  After the counter
updates, when fear has reached FEAR_MAX or boredom has reached BOREDOM_MAX
the code logs the exit, calls decrementHunterCount and terminates the
thread with pthread_exit, never reaching performHunterAction; otherwise it
calls performHunterAction.  Nothing on the exit path touches the room's
hunterArray, so the roster is returned as it came in. -/
def updateHunterState (ghostPresent : Bool) (fear boredom : Int)
    (hunterCount : Int) (roomRoster : List String) : HunterUpdateResult :=
  if FEAR_MAX ≤ hunterFearAfter ghostPresent fear ∨
      BOREDOM_MAX ≤ hunterBoredomAfter ghostPresent boredom then
    { fear := hunterFearAfter ghostPresent fear
      boredom := hunterBoredomAfter ghostPresent boredom
      hunterCount := decrementHunterCount hunterCount
      roomRoster := roomRoster
      exited := true
      acted := false }
  else
    { fear := hunterFearAfter ghostPresent fear
      boredom := hunterBoredomAfter ghostPresent boredom
      hunterCount := hunterCount
      roomRoster := roomRoster
      exited := false
      acted := true }

/-- Counterexample to claim C5 as stated: on a tick in which the hunter's
fear reaches FEAR_MAX the update does log the retirement, decrement the
counter and end the loop, but it does NOT remove the hunter from the
current room's roster — no code on the exit path calls removeHunter — so
the roster still contains the retiring hunter afterwards. -/
theorem updateHunterState_keeps_roster :
    FEAR_MAX ≤ (updateHunterState true 9 0 4 ["Alice"]).fear ∧
      (updateHunterState true 9 0 4 ["Alice"]).exited = true ∧
      "Alice" ∈ (updateHunterState true 9 0 4 ["Alice"]).roomRoster := by
  decide

/-- Claim C5 as amended: on any tick in which the updated fear reaches
FEAR_MAX or the updated boredom reaches BOREDOM_MAX, the hunter's update
ends the loop via pthread_exit without performing any action (no move,
collect or review) and decrements the house's active-hunter counter by one
(when it is positive); the hunter is not removed from its current room's
roster, which is left unchanged. -/
theorem updateHunterState_retires (ghostPresent : Bool)
    (fear boredom hunterCount : Int) (roomRoster : List String)
    (h : FEAR_MAX ≤ (updateHunterState ghostPresent fear boredom hunterCount
          roomRoster).fear ∨
        BOREDOM_MAX ≤ (updateHunterState ghostPresent fear boredom hunterCount
          roomRoster).boredom) :
    (updateHunterState ghostPresent fear boredom hunterCount
        roomRoster).exited = true ∧
    (updateHunterState ghostPresent fear boredom hunterCount
        roomRoster).acted = false ∧
    (updateHunterState ghostPresent fear boredom hunterCount
        roomRoster).hunterCount = decrementHunterCount hunterCount ∧
    (0 < hunterCount →
      (updateHunterState ghostPresent fear boredom hunterCount
        roomRoster).hunterCount = hunterCount - 1) ∧
    (updateHunterState ghostPresent fear boredom hunterCount
        roomRoster).roomRoster = roomRoster := by
  unfold updateHunterState at h ⊢
  split_ifs at h ⊢ with hc
  · refine ⟨rfl, rfl, rfl, fun hpos => ?_, rfl⟩
    unfold decrementHunterCount
    rw [if_pos hpos]
  · exact absurd h hc

/-- Witness for the amended C5 at a concrete input. -/
theorem updateHunterState_retires_witness :
    (updateHunterState true 9 0 4 ["Alice"]).exited = true ∧
      (updateHunterState true 9 0 4 ["Alice"]).acted = false ∧
      (updateHunterState true 9 0 4 ["Alice"]).hunterCount =
        decrementHunterCount 4 ∧
      (0 < (4 : Int) →
        (updateHunterState true 9 0 4 ["Alice"]).hunterCount = 4 - 1) ∧
      (updateHunterState true 9 0 4 ["Alice"]).roomRoster = ["Alice"] :=
  updateHunterState_retires true 9 0 4 ["Alice"] (by decide)

/-- Embedding of the verdict selection in evaluateGameOutcome (src/main.c,
lines 148-191).  Hunters are the final (fear, boredom) pairs stored in
house->hunterArray, evSize is the shared pool's size, ghostBoredom the
ghost's boredomTime.  The code counts hunters with fear >= 100 (the literal
100, although FEAR_MAX is 10) — with an empty hunter array fear_count is
set to NUM_HUNTERS — and hunters with boredom >= 100, prints the ghost-wins
line (result 0) when either count equals NUM_HUNTERS, else the hunters-win
line (result 1) when the pool size is 3 and the ghost's boredom is below
100, else the ghost-left line (result 2). -/
def evaluateGameOutcome (hunters : List (Int × Int)) (evSize : Int)
    (ghostBoredom : Int) : Nat :=
  if (if hunters.length = 0 then NUM_HUNTERS
      else hunters.countP (fun h => decide (100 ≤ h.1))) = NUM_HUNTERS ∨
      hunters.countP (fun h => decide (100 ≤ h.2)) = NUM_HUNTERS then 0
  else if evSize = 3 ∧ ghostBoredom < 100 then 1
  else 2

/-- Counterexample to claim C6 as stated: in a final state where every one
of the four hunters is incapacitated — fear at FEAR_MAX = 10 — the claim
requires the ghost-wins line, but evaluateGameOutcome compares fear against
the literal 100, counts no hunter, and prints the ghost-left line. -/
theorem evaluateGameOutcome_ignores_FEAR_MAX :
    (∀ h ∈ [((10 : Int), (0 : Int)), (10, 0), (10, 0), (10, 0)],
      FEAR_MAX ≤ h.1 ∨ BOREDOM_MAX ≤ h.2) ∧
      evaluateGameOutcome [(10, 0), (10, 0), (10, 0), (10, 0)] 0 100 = 2 := by
  decide

/-- Claim C6 as amended: for a final hunter array of the full NUM_HUNTERS
hunters, the verdict computation prints the ghost-wins line exactly when
all hunters have fear at least 100 or all hunters have boredom at least 100
(fear is compared against the literal 100, not FEAR_MAX = 10, and the two
incapacitation causes are not mixed); the hunters-win line exactly when
that fails, the pool size is 3 and the ghost's boredom is below
BOREDOM_MAX = 100; and the ghost-left line in all other cases. -/
theorem evaluateGameOutcome_cases (hunters : List (Int × Int))
    (evSize ghostBoredom : Int) (hlen : hunters.length = NUM_HUNTERS) :
    (evaluateGameOutcome hunters evSize ghostBoredom = 0 ↔
      ((∀ h ∈ hunters, 100 ≤ h.1) ∨ (∀ h ∈ hunters, 100 ≤ h.2))) ∧
    (evaluateGameOutcome hunters evSize ghostBoredom = 1 ↔
      (¬ ((∀ h ∈ hunters, 100 ≤ h.1) ∨ (∀ h ∈ hunters, 100 ≤ h.2)) ∧
        evSize = 3 ∧ ghostBoredom < 100)) ∧
    (evaluateGameOutcome hunters evSize ghostBoredom = 2 ↔
      (¬ ((∀ h ∈ hunters, 100 ≤ h.1) ∨ (∀ h ∈ hunters, 100 ≤ h.2)) ∧
        ¬ (evSize = 3 ∧ ghostBoredom < 100))) := by
  have hne : ¬ hunters.length = 0 := by
    rw [hlen]; decide
  have hc1 : (hunters.countP (fun h => decide (100 ≤ h.1)) = NUM_HUNTERS) ↔
      ∀ h ∈ hunters, 100 ≤ h.1 := by
    rw [← hlen, List.countP_eq_length]
    simp
  have hc2 : (hunters.countP (fun h => decide (100 ≤ h.2)) = NUM_HUNTERS) ↔
      ∀ h ∈ hunters, 100 ≤ h.2 := by
    rw [← hlen, List.countP_eq_length]
    simp
  unfold evaluateGameOutcome
  rw [if_neg hne]
  split_ifs with hA hB
  · refine ⟨⟨fun _ => ?_, fun _ => rfl⟩, ⟨fun h0 => absurd h0 (by decide), ?_⟩,
      ⟨fun h0 => absurd h0 (by decide), ?_⟩⟩
    · exact hA.imp hc1.mp hc2.mp
    · intro hcon
      exact absurd (hA.imp hc1.mp hc2.mp) hcon.1
    · intro hcon
      exact absurd (hA.imp hc1.mp hc2.mp) hcon.1
  · refine ⟨⟨fun h0 => absurd h0 (by decide), fun hcon => ?_⟩,
      ⟨fun _ => ⟨fun hcon => ?_, hB⟩, fun _ => rfl⟩,
      ⟨fun h0 => absurd h0 (by decide), fun hcon => absurd hB hcon.2⟩⟩
    · exact absurd (hcon.imp hc1.mpr hc2.mpr) hA
    · exact absurd (hcon.imp hc1.mpr hc2.mpr) hA
  · refine ⟨⟨fun h0 => absurd h0 (by decide), fun hcon => ?_⟩,
      ⟨fun h0 => absurd h0 (by decide), fun hcon => absurd hcon.2 hB⟩,
      ⟨fun _ => ⟨fun hcon => ?_, hB⟩, fun _ => rfl⟩⟩
    · exact absurd (hcon.imp hc1.mpr hc2.mpr) hA
    · exact absurd (hcon.imp hc1.mpr hc2.mpr) hA

/-- Witness for the amended C6 at a concrete final state: all four hunters
bored out at 100, so the ghost-wins line is selected. -/
theorem evaluateGameOutcome_cases_witness :
    (evaluateGameOutcome [((0 : Int), (100 : Int)), (0, 100), (0, 100), (0, 100)]
        0 100 = 0 ↔
      ((∀ h ∈ [((0 : Int), (100 : Int)), (0, 100), (0, 100), (0, 100)],
          100 ≤ h.1) ∨
        (∀ h ∈ [((0 : Int), (100 : Int)), (0, 100), (0, 100), (0, 100)],
          100 ≤ h.2))) ∧
    (evaluateGameOutcome [((0 : Int), (100 : Int)), (0, 100), (0, 100), (0, 100)]
        0 100 = 1 ↔
      (¬ ((∀ h ∈ [((0 : Int), (100 : Int)), (0, 100), (0, 100), (0, 100)],
            100 ≤ h.1) ∨
          (∀ h ∈ [((0 : Int), (100 : Int)), (0, 100), (0, 100), (0, 100)],
            100 ≤ h.2)) ∧
        (0 : Int) = 3 ∧ (100 : Int) < 100)) ∧
    (evaluateGameOutcome [((0 : Int), (100 : Int)), (0, 100), (0, 100), (0, 100)]
        0 100 = 2 ↔
      (¬ ((∀ h ∈ [((0 : Int), (100 : Int)), (0, 100), (0, 100), (0, 100)],
            100 ≤ h.1) ∨
          (∀ h ∈ [((0 : Int), (100 : Int)), (0, 100), (0, 100), (0, 100)],
            100 ≤ h.2)) ∧
        ¬ ((0 : Int) = 3 ∧ (100 : Int) < 100))) :=
  evaluateGameOutcome_cases [(0, 100), (0, 100), (0, 100), (0, 100)] 0 100
    (by decide)

/-- Constant RAND_MAX of the C library on the reference platform (glibc):
rand_r returns a value in [0, RAND_MAX]. -/
def RAND_MAX : Nat := 2147483647

lemma RAND_MAX_pos : 0 < RAND_MAX := by decide

/-- Embedding of randInt and randFloat (src/utils.c, lines 3-31) for the
calls randInt(min, max) with 0 <= min <= max that the program makes.  The
raw draw r is the injected value of rand_r, in [0, RAND_MAX]; randFloat
computes min + (r / RAND_MAX) * (max - min) and randInt truncates the
result with a cast to int.  The floating-point arithmetic is idealised as
exact rational arithmetic, so the truncation becomes the floor, which on
these non-negative values is Nat division. -/
def randInt (min max r : Nat) : Nat :=
  min + r * (max - min) / RAND_MAX

/-- Embedding of getRandomRoomIndex (src/utils.c, lines 236-238), the
destination index of moveToRandomRoomHunter: randInt(0, roomCount - 1). -/
def getRandomRoomIndex (roomCount r : Nat) : Nat :=
  randInt 0 (roomCount - 1) r

/-- Embedding of the destination-index computation in moveToRandomRoomGhost
(src/utils.c, lines 173-195): targetIndex = randInt(0, size - 1), the same
computation the hunter path uses. -/
def moveToRandomRoomGhostIndex (size r : Nat) : Nat :=
  randInt 0 (size - 1) r

lemma randInt_zero_le (max r : Nat) (hr : r ≤ RAND_MAX) :
    randInt 0 max r ≤ max := by
  unfold randInt
  rw [Nat.zero_add, Nat.sub_zero]
  calc r * max / RAND_MAX ≤ RAND_MAX * max / RAND_MAX :=
        Nat.div_le_div_right (Nat.mul_le_mul_right max hr)
    _ = max := Nat.mul_div_cancel_left max RAND_MAX_pos

/-- Counterexample to claim C4 as stated: for a room with 2 adjacent rooms
the destination index is not uniform over {0, 1} — of the RAND_MAX + 1
possible raw draws, exactly one (r = RAND_MAX) selects the last neighbour,
index 1, while RAND_MAX draws select index 0, because the code computes
randInt(0, size - 1) and randInt scales its draw into [min, max), reaching
max only at the single extreme draw. -/
theorem moveToRandomRoomGhostIndex_not_uniform :
    ((Finset.range (RAND_MAX + 1)).filter
        (fun r => moveToRandomRoomGhostIndex 2 r = 1)).card = 1 ∧
      ((Finset.range (RAND_MAX + 1)).filter
        (fun r => moveToRandomRoomGhostIndex 2 r = 0)).card = RAND_MAX ∧
      (1 : Nat) ≠ RAND_MAX := by
  have hidx : ∀ r : Nat, moveToRandomRoomGhostIndex 2 r = r / RAND_MAX := by
    intro r
    unfold moveToRandomRoomGhostIndex randInt
    norm_num
  refine ⟨?_, ?_, by decide⟩
  · have hset : (Finset.range (RAND_MAX + 1)).filter
        (fun r => moveToRandomRoomGhostIndex 2 r = 1) = {RAND_MAX} := by
      ext r
      simp only [Finset.mem_filter, Finset.mem_range, Finset.mem_singleton, hidx]
      constructor
      · rintro ⟨hlt, hdiv⟩
        have hge : RAND_MAX ≤ r := (Nat.one_le_div_iff RAND_MAX_pos).mp hdiv.ge
        omega
      · rintro rfl
        exact ⟨Nat.lt_succ_self _, Nat.div_self RAND_MAX_pos⟩
    rw [hset, Finset.card_singleton]
  · have hset : (Finset.range (RAND_MAX + 1)).filter
        (fun r => moveToRandomRoomGhostIndex 2 r = 0) = Finset.range RAND_MAX := by
      ext r
      simp only [Finset.mem_filter, Finset.mem_range, hidx]
      constructor
      · rintro ⟨hlt, hdiv⟩
        rcases Nat.lt_or_ge r RAND_MAX with h | h
        · exact h
        · have : 1 ≤ r / RAND_MAX := (Nat.one_le_div_iff RAND_MAX_pos).mpr h
          omega
      · intro hlt
        exact ⟨by omega, Nat.div_eq_of_lt hlt⟩
    rw [hset, Finset.card_range]

/-- Claim C4 as amended: for an actor whose current room has n adjacent
rooms (1 ≤ n, and n below RAND_MAX), both the hunter's getRandomRoomIndex
and the ghost's inline computation always produce an index in
{0, ..., n-1}, and every index — the last one included — is attainable for
some raw draw; but the selection is not uniform: for n ≥ 2 the last index
n - 1 is produced exactly by the single draw r = RAND_MAX. -/
theorem getRandomRoomIndex_range_and_reach (n : Nat) (hn : 1 ≤ n)
    (hnR : n ≤ RAND_MAX) :
    (∀ r, r ≤ RAND_MAX → getRandomRoomIndex n r < n ∧
      moveToRandomRoomGhostIndex n r < n) ∧
    (∀ i, i < n → ∃ r, r ≤ RAND_MAX ∧ getRandomRoomIndex n r = i ∧
      moveToRandomRoomGhostIndex n r = i) ∧
    (2 ≤ n → ∀ r, r ≤ RAND_MAX →
      (getRandomRoomIndex n r = n - 1 ↔ r = RAND_MAX)) := by
  have hidx : ∀ r : Nat, getRandomRoomIndex n r = r * (n - 1) / RAND_MAX := by
    intro r
    unfold getRandomRoomIndex randInt
    rw [Nat.zero_add, Nat.sub_zero]
  have hidx2 : ∀ r : Nat,
      moveToRandomRoomGhostIndex n r = r * (n - 1) / RAND_MAX := by
    intro r
    unfold moveToRandomRoomGhostIndex randInt
    rw [Nat.zero_add, Nat.sub_zero]
  refine ⟨?_, ?_, ?_⟩
  · intro r hr
    have h1 : randInt 0 (n - 1) r ≤ n - 1 := randInt_zero_le (n - 1) r hr
    constructor
    · have := h1
      unfold getRandomRoomIndex
      omega
    · have := h1
      unfold moveToRandomRoomGhostIndex
      omega
  · intro i hi
    rcases Nat.lt_or_ge i (n - 1) with hilt | hige
    · -- an interior index: the least draw r with i * RAND_MAX ≤ r * (n - 1)
      have hd : 1 ≤ n - 1 := by omega
      set d := n - 1 with hdef
      refine ⟨i * RAND_MAX / d + 1, ?_, ?_, ?_⟩
      · -- the chosen draw stays at most RAND_MAX
        have hq : i * RAND_MAX / d ≤ RAND_MAX - 1 := by
          have h1 : i * RAND_MAX ≤ (d - 1) * RAND_MAX :=
            Nat.mul_le_mul_right _ (by omega)
          have h2 : (d - 1) * RAND_MAX ≤ d * (RAND_MAX - 1) := by
            have hdR : d ≤ RAND_MAX - 1 := by
              have : d < RAND_MAX := by omega
              omega
            calc (d - 1) * RAND_MAX = d * RAND_MAX - RAND_MAX := by
                  rw [Nat.sub_mul, Nat.one_mul]
              _ ≤ d * RAND_MAX - d := by
                  have : d ≤ RAND_MAX := by omega
                  omega
              _ = d * (RAND_MAX - 1) := by
                  rw [Nat.mul_sub, Nat.mul_one]
          have h3 : i * RAND_MAX / d ≤ d * (RAND_MAX - 1) / d :=
            Nat.div_le_div_right (le_trans h1 h2)
          rwa [Nat.mul_div_cancel_left _ (by omega : 0 < d)] at h3
        omega
      · rw [hidx]
        have hmod := Nat.div_add_mod (i * RAND_MAX) d
        have hmlt : i * RAND_MAX % d < d := Nat.mod_lt _ (by omega)
        have hexp : (i * RAND_MAX / d + 1) * d
            = d * (i * RAND_MAX / d) + d := by ring
        have hlow : i * RAND_MAX ≤ (i * RAND_MAX / d + 1) * d := by omega
        have hhigh : (i * RAND_MAX / d + 1) * d < (i + 1) * RAND_MAX := by
          have hdR : d < RAND_MAX := by omega
          have : (i + 1) * RAND_MAX = i * RAND_MAX + RAND_MAX := by ring
          omega
        have hle : i ≤ (i * RAND_MAX / d + 1) * d / RAND_MAX :=
          (Nat.le_div_iff_mul_le RAND_MAX_pos).mpr hlow
        have hlt : (i * RAND_MAX / d + 1) * d / RAND_MAX < i + 1 :=
          (Nat.div_lt_iff_lt_mul RAND_MAX_pos).mpr hhigh
        omega
      · rw [hidx2]
        -- identical computation to the hunter's index
        have hmod := Nat.div_add_mod (i * RAND_MAX) d
        have hmlt : i * RAND_MAX % d < d := Nat.mod_lt _ (by omega)
        have hexp : (i * RAND_MAX / d + 1) * d
            = d * (i * RAND_MAX / d) + d := by ring
        have hlow : i * RAND_MAX ≤ (i * RAND_MAX / d + 1) * d := by omega
        have hhigh : (i * RAND_MAX / d + 1) * d < (i + 1) * RAND_MAX := by
          have hdR : d < RAND_MAX := by omega
          have : (i + 1) * RAND_MAX = i * RAND_MAX + RAND_MAX := by ring
          omega
        have hle : i ≤ (i * RAND_MAX / d + 1) * d / RAND_MAX :=
          (Nat.le_div_iff_mul_le RAND_MAX_pos).mpr hlow
        have hlt : (i * RAND_MAX / d + 1) * d / RAND_MAX < i + 1 :=
          (Nat.div_lt_iff_lt_mul RAND_MAX_pos).mpr hhigh
        omega
    · -- the last index: only the extreme draw reaches it
      have hieq : i = n - 1 := by omega
      refine ⟨RAND_MAX, le_refl _, ?_, ?_⟩
      · rw [hidx, Nat.mul_div_cancel_left _ RAND_MAX_pos, hieq]
      · rw [hidx2, Nat.mul_div_cancel_left _ RAND_MAX_pos, hieq]
  · intro h2 r hr
    have hd : 1 ≤ n - 1 := by omega
    rw [hidx]
    constructor
    · intro heq
      have hge : (n - 1) * RAND_MAX ≤ r * (n - 1) :=
        (Nat.le_div_iff_mul_le RAND_MAX_pos).mp heq.ge
      have : RAND_MAX * (n - 1) ≤ r * (n - 1) := by
        rwa [Nat.mul_comm (n - 1) RAND_MAX] at hge
      have hle : RAND_MAX ≤ r := Nat.le_of_mul_le_mul_right this (by omega)
      omega
    · rintro rfl
      rw [Nat.mul_div_cancel_left _ RAND_MAX_pos]

/-- Witness for the amended C4 at n = 3. -/
theorem getRandomRoomIndex_range_and_reach_witness :
    (∀ r, r ≤ RAND_MAX → getRandomRoomIndex 3 r < 3 ∧
      moveToRandomRoomGhostIndex 3 r < 3) ∧
    (∀ i, i < 3 → ∃ r, r ≤ RAND_MAX ∧ getRandomRoomIndex 3 r = i ∧
      moveToRandomRoomGhostIndex 3 r = i) ∧
    (2 ≤ 3 → ∀ r, r ≤ RAND_MAX →
      (getRandomRoomIndex 3 r = 3 - 1 ↔ r = RAND_MAX)) :=
  getRandomRoomIndex_range_and_reach 3 (by decide) (by decide)

/-- Embedding of the assignment loop of assignRandomEquipment (src/hunter.c,
lines 354-378), as called from main with the full set of NUM_HUNTERS
hunters.  The injected random source is the stream of raw rand_r draws; one
draw is consumed per do-while iteration, which proposes the equipment index
randInt(0, EV_COUNT - 1) and redraws while that index is already assigned.
`k` counts the hunters still to equip, `assigned` lists the equipment
indices handed out so far in hunter order (mirroring both the
assignedEquipment flag array and the hunters' equipment fields), `pos` is
the position in the draw stream, and `fuel` bounds the number of draws so
that the unbounded do-while is expressible in a total function — the C
loop corresponds to arbitrarily large fuel, and a run that the C code
never finishes is one that returns none at every fuel. -/
def assignGo (stream : Nat → Nat) :
    Nat → Nat → Nat → List Nat → Option (List Nat)
  | _, _, 0, assigned => some assigned
  | 0, _, _ + 1, _ => none
  | fuel + 1, pos, k + 1, assigned =>
    if randInt 0 3 (stream pos) ∈ assigned then
      assignGo stream fuel (pos + 1) (k + 1) assigned
    else
      assignGo stream fuel (pos + 1) k
        (assigned ++ [randInt 0 3 (stream pos)])

/-- Embedding of assignRandomEquipment (src/hunter.c, lines 354-378) at its
call site in main (src/main.c, line 16): numHunters = NUM_HUNTERS = 4,
starting with no equipment assigned. -/
def assignRandomEquipment (stream : Nat → Nat) (fuel : Nat) :
    Option (List Nat) :=
  assignGo stream fuel 0 NUM_HUNTERS []

/-- Divergence of the assignment loop on a given draw stream: no finite
number of draws completes it. -/
def assignRandomEquipmentDiverges (stream : Nat → Nat) : Prop :=
  ∀ fuel, assignRandomEquipment stream fuel = none

lemma assignGo_stuck_zero (fuel pos k : Nat) (assigned : List Nat)
    (ha : 0 ∈ assigned) (hk : k ≠ 0) :
    assignGo (fun _ => 0) fuel pos k assigned = none := by
  induction fuel generalizing pos with
  | zero =>
    cases k with
    | zero => exact absurd rfl hk
    | succ k => rfl
  | succ f ih =>
    cases k with
    | zero => exact absurd rfl hk
    | succ k =>
      have hzero : randInt 0 3 ((fun _ => 0) pos) = 0 := by simp [randInt]
      show assignGo (fun _ => 0) (f + 1) pos (k + 1) assigned = none
      rw [assignGo, hzero, if_pos ha]
      exact ih (pos + 1)

/-- Counterexample to the termination part of claim C7: for the injected
random source that always returns the draw 0, the first hunter receives
equipment index 0 and the second hunter's do-while proposes index 0
forever, so assignRandomEquipment never terminates — it fails to complete
within any number of draws. -/
theorem assignRandomEquipment_stuck_on_zeros :
    assignRandomEquipmentDiverges (fun _ => 0) := by
  intro fuel
  unfold assignRandomEquipment
  cases fuel with
  | zero => rfl
  | succ f =>
    have hzero : randInt 0 3 ((fun _ => 0) 0) = 0 := by simp [randInt]
    show assignGo (fun _ => 0) (f + 1) 0 (3 + 1) [] = none
    rw [assignGo, hzero, if_neg (by simp)]
    exact assignGo_stuck_zero f 1 3 [0] (by simp) (by decide)

lemma assignGo_sound (stream : Nat → Nat) (hs : ∀ i, stream i ≤ RAND_MAX) :
    ∀ (fuel pos k : Nat) (assigned out : List Nat),
      assigned.Nodup → (∀ x ∈ assigned, x ≤ 3) →
      assignGo stream fuel pos k assigned = some out →
      out.Nodup ∧ out.length = assigned.length + k ∧ ∀ x ∈ out, x ≤ 3 := by
  intro fuel
  induction fuel with
  | zero =>
    intro pos k assigned out hnd hb hgo
    cases k with
    | zero =>
      cases hgo
      exact ⟨hnd, by simp, hb⟩
    | succ k => cases hgo
  | succ f ih =>
    intro pos k assigned out hnd hb hgo
    cases k with
    | zero =>
      cases hgo
      exact ⟨hnd, by simp, hb⟩
    | succ k =>
      rw [show assignGo stream (f + 1) pos (k + 1) assigned =
          (if randInt 0 3 (stream pos) ∈ assigned then
            assignGo stream f (pos + 1) (k + 1) assigned
          else assignGo stream f (pos + 1) k
            (assigned ++ [randInt 0 3 (stream pos)])) from rfl] at hgo
      by_cases hmem : randInt 0 3 (stream pos) ∈ assigned
      · rw [if_pos hmem] at hgo
        exact ih (pos + 1) (k + 1) assigned out hnd hb hgo
      · rw [if_neg hmem] at hgo
        have hnd2 : (assigned ++ [randInt 0 3 (stream pos)]).Nodup := by
          simp [List.nodup_append, hnd, hmem]
        have hb2 : ∀ x ∈ assigned ++ [randInt 0 3 (stream pos)], x ≤ 3 := by
          intro x hx
          rcases List.mem_append.mp hx with hx | hx
          · exact hb x hx
          · rcases List.mem_singleton.mp hx with rfl
            exact randInt_zero_le 3 (stream pos) (hs pos)
        have h := ih (pos + 1) k _ out hnd2 hb2 hgo
        refine ⟨h.1, ?_, h.2.2⟩
        rw [h.2.1]
        simp only [List.length_append, List.length_cons, List.length_nil]
        omega

/-- Claim C7 as amended: assignRandomEquipment need not terminate — an
adversarial injected random source can propose an already-assigned index
forever — but whenever it does terminate, each of the NUM_HUNTERS = 4
hunters has been assigned exactly one equipment index, all indices are
valid kinds (at most 3), and no two hunters share one. -/
theorem assignRandomEquipment_unique_kinds (stream : Nat → Nat) (fuel : Nat)
    (out : List Nat) (hs : ∀ i, stream i ≤ RAND_MAX)
    (hgo : assignRandomEquipment stream fuel = some out) :
    out.length = NUM_HUNTERS ∧ out.Nodup ∧ ∀ x ∈ out, x ≤ 3 := by
  have h := assignGo_sound stream hs fuel 0 NUM_HUNTERS [] out
    List.nodup_nil (by simp) hgo
  exact ⟨by rw [h.2.1]; rfl, h.1, h.2.2⟩

/-- Concrete draw stream whose four draws map to the four equipment
indices 0, 1, 2, 3 in turn. -/
def stream4 : Nat → Nat
  | 0 => 0
  | 1 => 715827883
  | 2 => 1431655765
  | 3 => 2147483647
  | _ + 4 => 0

/-- Witness for the amended C7: a terminating run on a concrete stream
assigns the four distinct kinds. -/
theorem assignRandomEquipment_unique_kinds_witness :
    ([0, 1, 2, 3] : List Nat).length = NUM_HUNTERS ∧
      ([0, 1, 2, 3] : List Nat).Nodup ∧
      ∀ x ∈ ([0, 1, 2, 3] : List Nat), x ≤ 3 :=
  assignRandomEquipment_unique_kinds stream4 4 [0, 1, 2, 3]
    (by
      intro i
      match i with
      | 0 => decide
      | 1 => decide
      | 2 => decide
      | 3 => decide
      | n + 4 =>
        show (0 : Nat) ≤ RAND_MAX
        decide)
    (by decide)

end GhostHunt
